import Mathlib

/-!
Verification of the mana-economy and encrypted-identity subsystem of the
femtai-fantasies backend.

The development shallowly embeds the TypeScript source:

* `src/utils/manaManager.ts` — the per-card mana ledger (`rechargeManaIfNeeded`,
  `getCurrentMana`, `depleteMana`, `setCurrentMana`).  The ledger persists a
  JSON object keyed by card id; it is modelled as an association list
  `ManaState`.  "Today's date" (`getTodayDate()`) is passed in explicitly as a
  string parameter, and the card catalog (`getDatabase().cards`) as an
  association list.
* `src/utils/encryption.ts` — the cipher layer.  AES-256-CBC itself (together
  with UTF-8 coding and PKCS#7 padding inside Node's
  `cipher.update/final`) is a platform primitive, not repository code, so it is
  a parameter (`AESCipher`); the repository's own layer — the `ivHex:cipherHex`
  wire format, hex coding, colon splitting, IV length check, and the
  current-key-then-environment-key fallback — is embedded concretely.  Keys are
  modelled at the level of the derived 32-byte buffer (the result of `getKey`).
* `src/utils/userEmailHelper.ts` — `findUserByEmail` (both storage modes run
  the identical per-user loop, which is embedded once).
* `src/utils/userHelpers.ts` — `decryptUserData`.
* `src/routes/auth.ts` — the daily mana-reload-token grant performed on login.
* the chat routes file (reload / increase token redemption handlers).

JavaScript numbers holding mana are modelled as `Int` (every value the code
stores is an integer); the one fractional input (`setCurrentMana`'s `value`)
is modelled as `Rat`, on which `Math.floor` is exact.  JS `undefined` is
`Option.none`; JS truthiness tests on strings/numbers check `""`/`0`
explicitly where the source uses `||` or `!`.
-/

/-- A JS-object-style association list update: replace the first binding of
the key if present, otherwise append the new binding. -/
def setA {α : Type} : List (String × α) → String → α → List (String × α)
  | [], k, v => [(k, v)]
  | p :: rest, k, v => if p.1 = k then (k, v) :: rest else p :: setA rest k v

/-- Association-list lookup, modelling `obj[key]` / `Map.get`. -/
def lookupA {α : Type} : List (String × α) → String → Option α
  | [], _ => none
  | p :: rest, k => if p.1 = k then some p.2 else lookupA rest k

theorem lookupA_setA_self {α : Type} (l : List (String × α)) (k : String) (v : α) :
    lookupA (setA l k v) k = some v := by
  induction l with
  | nil => simp [setA, lookupA]
  | cons p rest ih =>
      by_cases h : p.1 = k
      · simp [setA, lookupA, h]
      · simp [setA, lookupA, h, ih]

theorem lookupA_setA_ne {α : Type} (l : List (String × α)) (k k' : String) (v : α)
    (h : k' ≠ k) : lookupA (setA l k v) k' = lookupA l k' := by
  induction l with
  | nil => simp [setA, lookupA, Ne.symm h]
  | cons p rest ih =>
      by_cases hp : p.1 = k
      · simp [setA, lookupA, hp, Ne.symm h]
      · simp [setA, lookupA, hp, ih]

/-! ## Data model (src/types.ts) -/

/-- The slice of `Card` the mana ledger reads: `attributes.mana` and the
optional `character` field (`src/types.ts`). -/
structure Card where
  mana : Int
  character : Option String
  deriving Repr, DecidableEq

/-- The slice of `CardSet` that the collection-bonus computation reads. -/
structure CardSet where
  id : String
  character : Option String
  deriving Repr, DecidableEq

/-- One record of the persisted mana state file
(`data/manaState.json`, shape documented in `src/utils/manaManager.ts`). -/
structure ManaRec where
  lastRechargeDate : String
  currentMana : Int
  deriving Repr, DecidableEq

/-- The whole mana state file: a JSON object keyed by card id. -/
abbrev ManaState := List (String × ManaRec)

/-- The slice of `UserProfile` (src/types.ts) that the verified subsystem
reads.  Optional fields are JS `undefined`-able properties. -/
structure UserProfile where
  id : String
  email : String
  username : Option String := none
  passwordHash : Option String := none
  bio : Option String := none
  interests : Option String := none
  location : Option String := none
  isAdmin : Option String := none
  manaReloadTokens : Option Int := none
  manaIncreaseTokens : Option Int := none
  lastLoginDate : Option String := none
  collectionCardIds : List String := []
  collectionSetIds : List String := []
  deriving Repr, DecidableEq

/-- The database view the embedded routes read: card catalog, set catalog and
user table (`getDatabase()` / the Prisma adapter expose the same contract). -/
structure DB where
  cards : List (String × Card)
  sets : List CardSet
  users : List (String × UserProfile)
  deriving Repr, DecidableEq

/-! ## Mana ledger (src/utils/manaManager.ts) -/

/-- JS `card.attributes.mana || 5`: `0` (and only `0`, among integers) is
falsy, so it falls back to `5`; any other integer is kept. -/
def manaOr5 (m : Int) : Int :=
  if m = 0 then 5 else m

/-- JS `opt ?? d` on an optional number. -/
def jsNullish (o : Option Int) (d : Int) : Int :=
  o.getD d

/-- `rechargeManaIfNeeded(cardId, baseOverride)`:
returns `0` for an unknown card; otherwise computes
`baseMana = baseOverride ?? (card.attributes.mana || 5)` and
`lastRechargeDate = cardState?.lastRechargeDate || today`; if that date
differs from today it persists `{lastRechargeDate: today, currentMana:
baseMana}` and returns `baseMana`, else it returns
`cardState?.currentMana ?? baseMana` without writing.
Result is `(returned value, mana state file after the call)`. -/
def rechargeManaIfNeeded (db : DB) (ms : ManaState) (today : String)
    (cardId : String) (baseOverride : Option Int) : Int × ManaState :=
  match lookupA db.cards cardId with
  | none => (0, ms)
  | some card =>
      let baseMana := baseOverride.getD (manaOr5 card.mana)
      let cardState := lookupA ms cardId
      let lastRechargeDate :=
        match cardState with
        | some cs => if cs.lastRechargeDate = "" then today else cs.lastRechargeDate
        | none => today
      if lastRechargeDate ≠ today then
        (baseMana, setA ms cardId ⟨today, baseMana⟩)
      else
        (match cardState with
         | some cs => cs.currentMana
         | none => baseMana, ms)

/-- `getCurrentMana(cardId, baseOverride)` just delegates to
`rechargeManaIfNeeded`. -/
def getCurrentMana (db : DB) (ms : ManaState) (today : String)
    (cardId : String) (baseOverride : Option Int) : Int × ManaState :=
  rechargeManaIfNeeded db ms today cardId baseOverride

/-- `depleteMana(cardId)`.  The source loads the state file into the local
`manaState`, then awaits `rechargeManaIfNeeded(cardId)` (which may rewrite the
file), but afterwards keeps using the stale local `manaState` — both the
recharged value and the recharged file are discarded, and the final write is
built from the pre-recharge snapshot: `currentMana = cardState?.currentMana ??
baseMana`, `newMana = Math.max(0, currentMana - 1)`, stored with today's
date. -/
def depleteMana (db : DB) (ms : ManaState) (today : String)
    (cardId : String) : Int × ManaState :=
  match lookupA db.cards cardId with
  | none => (0, ms)
  | some card =>
      let baseMana := manaOr5 card.mana
      -- the file as read into the local variable before the recharge call
      let manaState := ms
      -- `await rechargeManaIfNeeded(cardId)` rewrites the file, but its
      -- result and its write are never consulted again
      let _ := rechargeManaIfNeeded db ms today cardId none
      let currentMana :=
        match lookupA manaState cardId with
        | some cs => cs.currentMana
        | none => baseMana
      let newMana := max 0 (currentMana - 1)
      (newMana, setA manaState cardId ⟨today, newMana⟩)

/-- `setCurrentMana(cardId, value)`: returns `0` for an unknown card;
otherwise stores `{lastRechargeDate: manaState[cardId]?.lastRechargeDate ||
today, currentMana: Math.max(0, Math.floor(value))}` and returns the stored
mana.  `value` is a JS number, modelled as `Rat` (on which `Math.floor` is
exact). -/
def setCurrentMana (db : DB) (ms : ManaState) (today : String)
    (cardId : String) (value : Rat) : Int × ManaState :=
  match lookupA db.cards cardId with
  | none => (0, ms)
  | some _ =>
      let keptDate :=
        match lookupA ms cardId with
        | some cs => if cs.lastRechargeDate = "" then today else cs.lastRechargeDate
        | none => today
      let newMana := max 0 value.floor
      (newMana, setA ms cardId ⟨keptDate, newMana⟩)

/-- A one-card catalog used by concrete witnesses: card `"c"` with
`attributes.mana = 5` and no `character`. -/
def sampleDB : DB := ⟨[("c", ⟨5, none⟩)], [], []⟩

/-- Claim C5: `rechargeManaIfNeeded` with an override `b` resets to `b` and
stamps today when the stored `lastRechargeDate` differs from today (the
hypothesis `cs.lastRechargeDate ≠ ""` excludes the empty string, which is not
a calendar date — the source maps it to today via `|| today`); returns the
stored `currentMana` unchanged when the stored date is today; and returns `b`
without persisting when no record exists. -/
theorem claim_C5 (db : DB) (ms : ManaState) (today cardId : String) (card : Card)
    (b : Int) (hcard : lookupA db.cards cardId = some card) :
    (∀ cs, lookupA ms cardId = some cs → cs.lastRechargeDate ≠ today →
        cs.lastRechargeDate ≠ "" →
        rechargeManaIfNeeded db ms today cardId (some b)
          = (b, setA ms cardId ⟨today, b⟩)) ∧
    (∀ cs, lookupA ms cardId = some cs → cs.lastRechargeDate = today →
        rechargeManaIfNeeded db ms today cardId (some b) = (cs.currentMana, ms)) ∧
    (lookupA ms cardId = none →
        rechargeManaIfNeeded db ms today cardId (some b) = (b, ms)) := by
  refine ⟨?_, ?_, ?_⟩
  · intro cs hcs hne hne'
    simp [rechargeManaIfNeeded, hcard, hcs, hne, hne']
  · intro cs hcs heq
    simp [rechargeManaIfNeeded, hcard, hcs, heq]
  · intro hnone
    simp [rechargeManaIfNeeded, hcard, hnone]

theorem claim_C5_witness :
    rechargeManaIfNeeded sampleDB [("c", ⟨"2026-02-01", 2⟩)] "2026-02-02" "c" (some 7)
      = (7, [("c", ⟨"2026-02-02", 7⟩)]) ∧
    rechargeManaIfNeeded sampleDB [("c", ⟨"2026-02-02", 2⟩)] "2026-02-02" "c" (some 7)
      = (2, [("c", ⟨"2026-02-02", 2⟩)]) ∧
    rechargeManaIfNeeded sampleDB [] "2026-02-02" "c" (some 7) = (7, []) := by
  refine ⟨?_, ?_, ?_⟩
  · exact (((claim_C5 sampleDB [("c", ⟨"2026-02-01", 2⟩)] "2026-02-02" "c" ⟨5, none⟩ 7
      (by decide)).1 ⟨"2026-02-01", 2⟩ (by decide) (by decide) (by decide)).trans (by decide))
  · exact (((claim_C5 sampleDB [("c", ⟨"2026-02-02", 2⟩)] "2026-02-02" "c" ⟨5, none⟩ 7
      (by decide)).2.1 ⟨"2026-02-02", 2⟩ (by decide) (by decide)).trans (by decide))
  · exact (((claim_C5 sampleDB [] "2026-02-02" "c" ⟨5, none⟩ 7
      (by decide)).2.2 (by decide)))

/-- Claim C1 (code bug): `depleteMana` is supposed to recharge first and then
decrement the post-recharge mana, so the first deplete on a new day for a
card with base mana 5 should return 4.  The source instead decrements the
pre-recharge snapshot it loaded before calling `rechargeManaIfNeeded`, so with
a stored record `{lastRechargeDate: "2026-02-01", currentMana: 0}` and today
`"2026-02-02"` it returns `max 0 (0 - 1) = 0` and persists 0, discarding the
recharge entirely. -/
theorem claim_C1 :
    depleteMana sampleDB [("c", ⟨"2026-02-01", 0⟩)] "2026-02-02" "c"
      = (0, [("c", ⟨"2026-02-02", 0⟩)]) ∧
    (rechargeManaIfNeeded sampleDB [("c", ⟨"2026-02-01", 0⟩)] "2026-02-02" "c" none).1 - 1
      = 4 ∧
    (0 : Int) ≠ 4 := by
  decide

/-- Claim C9: for a card present in the catalog, `setCurrentMana` stores and
returns `max 0 ⌊value⌋` (`Rat.floor` embeds `Math.floor`), keeps an existing
(nonempty) `lastRechargeDate` unchanged, and stamps today only when no record
existed. -/
theorem claim_C9 (db : DB) (ms : ManaState) (today cardId : String) (card : Card)
    (v : Rat) (hcard : lookupA db.cards cardId = some card) :
    (setCurrentMana db ms today cardId v).1 = max 0 v.floor ∧
    (∀ cs, lookupA ms cardId = some cs → cs.lastRechargeDate ≠ "" →
        (setCurrentMana db ms today cardId v).2
          = setA ms cardId ⟨cs.lastRechargeDate, max 0 v.floor⟩) ∧
    (lookupA ms cardId = none →
        (setCurrentMana db ms today cardId v).2
          = setA ms cardId ⟨today, max 0 v.floor⟩) := by
  refine ⟨?_, ?_, ?_⟩
  · simp [setCurrentMana, hcard]
  · intro cs hcs hne
    simp [setCurrentMana, hcard, hcs, hne]
  · intro hnone
    simp [setCurrentMana, hcard, hnone]

theorem claim_C9_witness :
    (setCurrentMana sampleDB [("c", ⟨"2026-02-01", 5⟩)] "2026-02-02" "c"
        (Rat.divInt 39 10)).1 = 3 ∧
    (setCurrentMana sampleDB [("c", ⟨"2026-02-01", 5⟩)] "2026-02-02" "c"
        (Rat.divInt 39 10)).2 = [("c", ⟨"2026-02-01", 3⟩)] ∧
    (setCurrentMana sampleDB [] "2026-02-02" "c" (Rat.divInt (-5) 1)).1 = 0 := by
  refine ⟨?_, ?_, ?_⟩
  · exact ((claim_C9 sampleDB [("c", ⟨"2026-02-01", 5⟩)] "2026-02-02" "c" ⟨5, none⟩
      (Rat.divInt 39 10) (by decide)).1.trans (by decide))
  · exact (((claim_C9 sampleDB [("c", ⟨"2026-02-01", 5⟩)] "2026-02-02" "c" ⟨5, none⟩
      (Rat.divInt 39 10) (by decide)).2.1 ⟨"2026-02-01", 5⟩ (by decide) (by decide)).trans
      (by decide))
  · exact ((claim_C9 sampleDB [] "2026-02-02" "c" ⟨5, none⟩
      (Rat.divInt (-5) 1) (by decide)).1.trans (by decide))

/-- Claim C10: every mana-ledger operation on a card id absent from the card
catalog returns 0 and leaves the persisted mana state untouched. -/
theorem claim_C10 (db : DB) (ms : ManaState) (today cardId : String)
    (bo : Option Int) (v : Rat) (h : lookupA db.cards cardId = none) :
    rechargeManaIfNeeded db ms today cardId bo = (0, ms) ∧
    getCurrentMana db ms today cardId bo = (0, ms) ∧
    depleteMana db ms today cardId = (0, ms) ∧
    setCurrentMana db ms today cardId v = (0, ms) := by
  refine ⟨?_, ?_, ?_, ?_⟩ <;>
    simp [rechargeManaIfNeeded, getCurrentMana, depleteMana, setCurrentMana, h]

theorem claim_C10_witness :
    rechargeManaIfNeeded sampleDB [] "2026-02-02" "nope" none = (0, []) ∧
    getCurrentMana sampleDB [] "2026-02-02" "nope" none = (0, []) ∧
    depleteMana sampleDB [] "2026-02-02" "nope" = (0, []) ∧
    setCurrentMana sampleDB [] "2026-02-02" "nope" (Rat.divInt 3 1) = (0, []) :=
  claim_C10 sampleDB [] "2026-02-02" "nope" none (Rat.divInt 3 1) (by decide)

/-! ## Daily login grant (src/routes/auth.ts, POST /login) -/

/-- The daily mana-reload grant executed on successful login: if
`currentUser.lastLoginDate !== today` then
`manaReloadTokens = Math.min(5, (manaReloadTokens || 0) + 1)` and
`lastLoginDate = today`; otherwise nothing changes. -/
def dailyGrant (user : UserProfile) (today : String) : UserProfile :=
  if user.lastLoginDate ≠ some today then
    { user with
      manaReloadTokens := some (min 5 (user.manaReloadTokens.getD 0 + 1)),
      lastLoginDate := some today }
  else user

/-! ## Token redemption handlers (chat routes file) -/

/-- The collection bonus of the reload/increase/deplete handlers:
`baseMana = (card.attributes.mana || 5)`, plus — when `card.character` is
truthy — the number of sets with `s.character === card.character` whose id is
in `user.collectionSetIds`. -/
def computeBaseMana (db : DB) (card : Card) (user : UserProfile) : Int :=
  let base := manaOr5 card.mana
  match card.character with
  | none => base
  | some ch =>
      if ch = "" then base
      else
        base +
          ((db.sets.filter
              (fun s => s.character == some ch && user.collectionSetIds.contains s.id)).length : Int)

/-- Route outcomes of the reload / increase handlers, by response branch. -/
inductive HandlerRes where
  | unauthorized
  | notFound
  | forbidden
  | noTokens
  | ok (currentMana baseMana tokensRemaining : Int)
  deriving Repr, DecidableEq

/-- `POST /card/:cardId/reload`: requires a user id, an existing user and
card, ownership, and `manaReloadTokens` truthy and positive; then force-sets
the card's mana to the computed base via `setCurrentMana`, decrements the
token count by one (floored at 0) and persists it on the user. -/
def reloadHandler (db : DB) (ms : ManaState) (today : String)
    (userId : Option String) (cardId : String) : HandlerRes × ManaState × DB :=
  match userId with
  | none => (.unauthorized, ms, db)
  | some uid =>
      match lookupA db.users uid, lookupA db.cards cardId with
      | some user, some card =>
          if ¬ user.collectionCardIds.contains cardId then (.forbidden, ms, db)
          else if user.manaReloadTokens.getD 0 ≤ 0 then (.noTokens, ms, db)
          else
            let baseMana := computeBaseMana db card user
            let r := setCurrentMana db ms today cardId (baseMana : Rat)
            let updatedTokens := max 0 (user.manaReloadTokens.getD 0 - 1)
            let db' := { db with
              users := setA db.users uid
                { user with manaReloadTokens := some updatedTokens } }
            (.ok r.1 baseMana updatedTokens, r.2, db')
      | _, _ => (.notFound, ms, db)

/-- `POST /card/:cardId/increase`: same guards on `manaIncreaseTokens`; reads
`current = getCurrentMana(cardId, baseMana)`, sets
`newCurrent = Math.min(baseMana, current + 1)` via `setCurrentMana`, and
decrements the increase-token count by one. -/
def increaseHandler (db : DB) (ms : ManaState) (today : String)
    (userId : Option String) (cardId : String) : HandlerRes × ManaState × DB :=
  match userId with
  | none => (.unauthorized, ms, db)
  | some uid =>
      match lookupA db.users uid, lookupA db.cards cardId with
      | some user, some card =>
          if ¬ user.collectionCardIds.contains cardId then (.forbidden, ms, db)
          else if user.manaIncreaseTokens.getD 0 ≤ 0 then (.noTokens, ms, db)
          else
            let baseMana := computeBaseMana db card user
            let g := getCurrentMana db ms today cardId (some baseMana)
            let newCurrent := min baseMana (g.1 + 1)
            let r := setCurrentMana db g.2 today cardId (newCurrent : Rat)
            let updatedTokens := max 0 (user.manaIncreaseTokens.getD 0 - 1)
            let db' := { db with
              users := setA db.users uid
                { user with manaIncreaseTokens := some updatedTokens } }
            (.ok newCurrent baseMana updatedTokens, r.2, db')
      | _, _ => (.notFound, ms, db)

/-- The user of the claim C7 scenario: one reload token, owns card `"c7"`
and the two `"hero"` sets. -/
def scenarioUser : UserProfile :=
  { id := "u1", email := "e", manaReloadTokens := some 1,
    collectionCardIds := ["c7"], collectionSetIds := ["s1", "s2"] }

/-- The database of the claim C7 scenario: card `"c7"` has catalog mana 5 and
character `"hero"`; two owned `"hero"` sets give a +2 bonus. -/
def scenarioDB : DB :=
  { cards := [("c7", ⟨5, some "hero"⟩)],
    sets := [⟨"s1", some "hero"⟩, ⟨"s2", some "hero"⟩, ⟨"s3", some "villain"⟩],
    users := [("u1", scenarioUser)] }

/-- The scenario database after one successful reload: the token was spent. -/
def scenarioDBAfter : DB :=
  { scenarioDB with
    users := [("u1", { scenarioUser with manaReloadTokens := some 0 })] }

/-- Claim C7: in the scenario (1 reload token, base mana 7 = 5 + 2 owned-set
bonus) the first redemption yields mana 7 and token count 0, the second is
rejected as `noTokens` with no state change; in general, redemption requires
a positive reload-token count and consumes exactly one token. -/
theorem claim_C7 :
    (reloadHandler scenarioDB [] "2026-02-02" (some "u1") "c7"
      = (.ok 7 7 0, [("c7", ⟨"2026-02-02", 7⟩)], scenarioDBAfter)) ∧
    (reloadHandler scenarioDBAfter [("c7", ⟨"2026-02-02", 7⟩)] "2026-02-02"
        (some "u1") "c7"
      = (.noTokens, [("c7", ⟨"2026-02-02", 7⟩)], scenarioDBAfter)) ∧
    (∀ (db : DB) (ms : ManaState) (today uid cid : String) (u : UserProfile)
        (card : Card),
      lookupA db.users uid = some u → lookupA db.cards cid = some card →
      u.collectionCardIds.contains cid = true → u.manaReloadTokens.getD 0 ≤ 0 →
      reloadHandler db ms today (some uid) cid = (.noTokens, ms, db)) ∧
    (∀ (db : DB) (ms : ManaState) (today uid cid : String) (u : UserProfile)
        (card : Card),
      lookupA db.users uid = some u → lookupA db.cards cid = some card →
      u.collectionCardIds.contains cid = true → 1 ≤ u.manaReloadTokens.getD 0 →
      reloadHandler db ms today (some uid) cid
        = (.ok (setCurrentMana db ms today cid ((computeBaseMana db card u : Int) : Rat)).1
               (computeBaseMana db card u)
               (u.manaReloadTokens.getD 0 - 1),
           (setCurrentMana db ms today cid ((computeBaseMana db card u : Int) : Rat)).2,
           { db with
             users := setA db.users uid
               { u with manaReloadTokens := some (u.manaReloadTokens.getD 0 - 1) } })) := by
  refine ⟨by decide, by decide, ?_, ?_⟩
  · intro db ms today uid cid u card hu hc hown ht
    have hmem : cid ∈ u.collectionCardIds := by simpa using hown
    simp [reloadHandler, hu, hc, hmem, ht]
  · intro db ms today uid cid u card hu hc hown ht
    have hmem : cid ∈ u.collectionCardIds := by simpa using hown
    have hnot : ¬ u.manaReloadTokens.getD 0 ≤ 0 := by omega
    have hmax : max 0 (u.manaReloadTokens.getD 0 - 1) = u.manaReloadTokens.getD 0 - 1 := by
      omega
    simp [reloadHandler, hu, hc, hmem, hnot, hmax]

theorem claim_C7_witness :
    reloadHandler scenarioDBAfter [] "2026-02-02" (some "u1") "c7"
      = (.noTokens, [], scenarioDBAfter) ∧
    reloadHandler scenarioDB [] "2026-02-02" (some "u1") "c7"
      = (.ok 7 7 0, [("c7", ⟨"2026-02-02", 7⟩)], scenarioDBAfter) := by
  constructor
  · exact claim_C7.2.2.1 scenarioDBAfter [] "2026-02-02" "u1" "c7"
      { scenarioUser with manaReloadTokens := some 0 } ⟨5, some "hero"⟩
      (by decide) (by decide) (by decide) (by decide)
  · exact (claim_C7.2.2.2 scenarioDB [] "2026-02-02" "u1" "c7"
      scenarioUser ⟨5, some "hero"⟩
      (by decide) (by decide) (by decide) (by decide)).trans (by decide)

theorem dailyGrant_tokens_le {u : UserProfile} {d : String}
    (h : u.manaReloadTokens.getD 0 ≤ 5) :
    (dailyGrant u d).manaReloadTokens.getD 0 ≤ 5 := by
  unfold dailyGrant
  split
  · simp only [Option.getD_some]
    omega
  · exact h

theorem foldl_dailyGrant_le (days : List String) :
    ∀ u : UserProfile, u.manaReloadTokens.getD 0 ≤ 5 →
      (days.foldl dailyGrant u).manaReloadTokens.getD 0 ≤ 5 := by
  induction days with
  | nil => intro u h; simpa using h
  | cons d rest ih => intro u h; exact ih _ (dailyGrant_tokens_le h)

/-- Claim C8: a login on a day different from `lastLoginDate` sets the token
count to `min 5 (tokens + 1)` (so it increments by exactly 1 while below 5)
and stamps today; a repeated login on the same day changes nothing; and from
any count ≤ 5 (in particular 0) no sequence of daily logins ever pushes the
count above 5. -/
theorem claim_C8 (u : UserProfile) (today : String) :
    (u.lastLoginDate ≠ some today →
       (dailyGrant u today).manaReloadTokens
           = some (min 5 (u.manaReloadTokens.getD 0 + 1)) ∧
       (dailyGrant u today).lastLoginDate = some today ∧
       (u.manaReloadTokens.getD 0 < 5 →
          (dailyGrant u today).manaReloadTokens
            = some (u.manaReloadTokens.getD 0 + 1))) ∧
    (u.lastLoginDate = some today → dailyGrant u today = u) ∧
    (dailyGrant (dailyGrant u today) today = dailyGrant u today) ∧
    (∀ days : List String, u.manaReloadTokens.getD 0 ≤ 5 →
       (days.foldl dailyGrant u).manaReloadTokens.getD 0 ≤ 5) := by
  refine ⟨?_, ?_, ?_, ?_⟩
  · intro h
    refine ⟨by simp [dailyGrant, h], by simp [dailyGrant, h], ?_⟩
    intro hlt
    have : min 5 (u.manaReloadTokens.getD 0 + 1) = u.manaReloadTokens.getD 0 + 1 := by omega
    simp [dailyGrant, h, this]
  · intro h
    simp [dailyGrant, h]
  · by_cases h : u.lastLoginDate = some today
    · simp [dailyGrant, h]
    · simp [dailyGrant, h]
  · exact fun days h => foldl_dailyGrant_le days u h

theorem claim_C8_witness :
    (dailyGrant { id := "u", email := "e" } "2026-02-02").manaReloadTokens = some 1 ∧
    dailyGrant (dailyGrant { id := "u", email := "e" } "2026-02-02") "2026-02-02"
      = dailyGrant { id := "u", email := "e" } "2026-02-02" ∧
    ((["2026-02-02", "2026-02-02", "2026-02-03", "2026-02-04", "2026-02-05",
       "2026-02-06", "2026-02-07", "2026-02-08"].foldl dailyGrant
        { id := "u", email := "e" }).manaReloadTokens.getD 0 ≤ 5) := by
  refine ⟨?_, ?_, ?_⟩
  · exact ((claim_C8 { id := "u", email := "e" } "2026-02-02").1 (by decide)).2.2 (by decide)
  · exact (claim_C8 { id := "u", email := "e" } "2026-02-02").2.2.1
  · exact (claim_C8 { id := "u", email := "e" } "2026-02-02").2.2.2
      ["2026-02-02", "2026-02-02", "2026-02-03", "2026-02-04", "2026-02-05",
       "2026-02-06", "2026-02-07", "2026-02-08"] (by decide)

/-! ## The mana invariant (claim C3) -/

/-- The claimed invariant on a card's persisted mana record:
`0 ≤ currentMana ≤ B`, where `B` is the user-relative base mana.
Vacuously true when no record exists. -/
def manaLedgerInv (B : Int) (ms : ManaState) (cardId : String) : Bool :=
  match lookupA ms cardId with
  | none => true
  | some r => decide (0 ≤ r.currentMana) && decide (r.currentMana ≤ B)

theorem manaLedgerInv_some {B : Int} {ms : ManaState} {cardId : String} {r : ManaRec}
    (h : lookupA ms cardId = some r) :
    manaLedgerInv B ms cardId = true ↔ 0 ≤ r.currentMana ∧ r.currentMana ≤ B := by
  simp [manaLedgerInv, h]

theorem manaLedgerInv_setA {B : Int} {ms : ManaState} {cardId : String} {r : ManaRec}
    (h0 : 0 ≤ r.currentMana) (h1 : r.currentMana ≤ B) :
    manaLedgerInv B (setA ms cardId r) cardId = true := by
  simp [manaLedgerInv, lookupA_setA_self, h0, h1]

theorem manaOr5_nonneg {m : Int} (h : 0 ≤ m) : 0 ≤ manaOr5 m := by
  unfold manaOr5
  split <;> omega

theorem manaOr5_le_computeBaseMana (db : DB) (card : Card) (user : UserProfile) :
    manaOr5 card.mana ≤ computeBaseMana db card user := by
  cases hch : card.character with
  | none => simp [computeBaseMana, hch]
  | some ch =>
      simp only [computeBaseMana, hch]
      split
      · exact le_refl _
      · have : (0 : Int) ≤
            ((db.sets.filter
              (fun s => s.character == some ch && user.collectionSetIds.contains s.id)).length : Int) :=
          Int.natCast_nonneg _
        omega

/-- `Rat.floor` of an integer cast is that integer. -/
theorem rat_floor_int (n : Int) : ((n : Rat)).floor = n := by
  simp [Rat.floor_def']

/-- `rechargeManaIfNeeded` preserves the mana invariant whenever the value it
would write (`baseOverride ?? (card.attributes.mana || 5)`) lies in `[0, B]`. -/
theorem rechargeManaIfNeeded_inv (db : DB) (ms : ManaState) (today cardId : String)
    (card : Card) (bo : Option Int) (B : Int)
    (hcard : lookupA db.cards cardId = some card)
    (hinv : manaLedgerInv B ms cardId = true)
    (hb0 : 0 ≤ bo.getD (manaOr5 card.mana))
    (hbB : bo.getD (manaOr5 card.mana) ≤ B) :
    manaLedgerInv B (rechargeManaIfNeeded db ms today cardId bo).2 cardId = true := by
  rcases h : lookupA ms cardId with _ | cs
  · have hr : (rechargeManaIfNeeded db ms today cardId bo).2 = ms := by
      simp [rechargeManaIfNeeded, hcard, h]
    rw [hr]
    exact hinv
  · by_cases hd : (if cs.lastRechargeDate = "" then today else cs.lastRechargeDate) = today
    · have hr : (rechargeManaIfNeeded db ms today cardId bo).2 = ms := by
        simp [rechargeManaIfNeeded, hcard, h, hd]
      rw [hr]
      exact hinv
    · have hr : (rechargeManaIfNeeded db ms today cardId bo).2
          = setA ms cardId ⟨today, bo.getD (manaOr5 card.mana)⟩ := by
        simp [rechargeManaIfNeeded, hcard, h, hd]
      rw [hr]
      exact manaLedgerInv_setA hb0 hbB

/-- `setCurrentMana` preserves the mana invariant whenever `⌊value⌋ ≤ B`. -/
theorem setCurrentMana_inv (db : DB) (ms : ManaState) (today cardId : String)
    (card : Card) (B : Int) (v : Rat)
    (hcard : lookupA db.cards cardId = some card)
    (hB0 : 0 ≤ B) (hfl : v.floor ≤ B) :
    manaLedgerInv B (setCurrentMana db ms today cardId v).2 cardId = true := by
  simp only [setCurrentMana, hcard]
  exact manaLedgerInv_setA (le_max_left _ _) (max_le hB0 hfl)

/-- Claim C3, counterexample: `setCurrentMana` is listed among the operations
preserving `currentMana ∈ [0, baseMana]`, but it clamps only from below: with
base mana 5 and a state satisfying the invariant, `setCurrentMana(cardId, 100)`
stores 100 > 5, breaking it. -/
theorem claim_C3_cex :
    manaLedgerInv 5 [("c", ⟨"2026-02-01", 5⟩)] "c" = true ∧
    manaLedgerInv 5
      (setCurrentMana sampleDB [("c", ⟨"2026-02-01", 5⟩)] "2026-02-02" "c"
        (Rat.divInt 100 1)).2 "c" = false := by
  decide

/-- Claim C3 as amended: with `B` the user-relative base mana
(`computeBaseMana`) of a catalogued card with non-negative catalog mana, the
invariant `0 ≤ currentMana ≤ B` is preserved by `rechargeManaIfNeeded`
(with override `B`, as the routes pass, or with no override, as
`depleteMana`'s internal call passes), by `depleteMana`, by the reload and
increase token-redemption handlers, and by `setCurrentMana` whenever
`⌊value⌋ ≤ B` — which the two redemption call sites always satisfy, passing
`B` and `min B (current + 1)` respectively. -/
theorem claim_C3 (db : DB) (ms : ManaState) (today cardId uid : String)
    (card : Card) (user : UserProfile) (B : Int)
    (hcard : lookupA db.cards cardId = some card)
    (huser : lookupA db.users uid = some user)
    (hm : 0 ≤ card.mana)
    (hB : B = computeBaseMana db card user)
    (hinv : manaLedgerInv B ms cardId = true) :
    manaLedgerInv B (rechargeManaIfNeeded db ms today cardId (some B)).2 cardId = true ∧
    manaLedgerInv B (rechargeManaIfNeeded db ms today cardId none).2 cardId = true ∧
    manaLedgerInv B (depleteMana db ms today cardId).2 cardId = true ∧
    manaLedgerInv B (reloadHandler db ms today (some uid) cardId).2.1 cardId = true ∧
    manaLedgerInv B (increaseHandler db ms today (some uid) cardId).2.1 cardId = true ∧
    (∀ v : Rat, v.floor ≤ B →
       manaLedgerInv B (setCurrentMana db ms today cardId v).2 cardId = true) := by
  have hm0 : 0 ≤ manaOr5 card.mana := manaOr5_nonneg hm
  have hmB : manaOr5 card.mana ≤ B := hB ▸ manaOr5_le_computeBaseMana db card user
  have hB0 : 0 ≤ B := le_trans hm0 hmB
  refine ⟨?_, ?_, ?_, ?_, ?_, ?_⟩
  · exact rechargeManaIfNeeded_inv db ms today cardId card (some B) B hcard hinv
      (by simpa using hB0) (by simp)
  · exact rechargeManaIfNeeded_inv db ms today cardId card none B hcard hinv
      (by simpa using hm0) (by simpa using hmB)
  · rcases h : lookupA ms cardId with _ | cs
    · have hr : (depleteMana db ms today cardId).2
          = setA ms cardId ⟨today, max 0 (manaOr5 card.mana - 1)⟩ := by
        simp [depleteMana, hcard, h]
      rw [hr]
      exact manaLedgerInv_setA (le_max_left _ _) (max_le hB0 (by omega))
    · have hcm := (manaLedgerInv_some h).mp hinv
      have hr : (depleteMana db ms today cardId).2
          = setA ms cardId ⟨today, max 0 (cs.currentMana - 1)⟩ := by
        simp [depleteMana, hcard, h]
      rw [hr]
      exact manaLedgerInv_setA (le_max_left _ _) (max_le hB0 (by omega))
  · by_cases hown : cardId ∈ user.collectionCardIds
    · by_cases ht : user.manaReloadTokens.getD 0 ≤ 0
      · have hr : (reloadHandler db ms today (some uid) cardId).2.1 = ms := by
          simp [reloadHandler, huser, hcard, hown, ht]
        rw [hr]
        exact hinv
      · have hr : (reloadHandler db ms today (some uid) cardId).2.1
            = (setCurrentMana db ms today cardId
                ((computeBaseMana db card user : Int) : Rat)).2 := by
          simp [reloadHandler, huser, hcard, hown, ht]
        rw [hr, ← hB]
        exact setCurrentMana_inv db ms today cardId card B _ hcard hB0
          (by rw [rat_floor_int])
    · have hr : (reloadHandler db ms today (some uid) cardId).2.1 = ms := by
        simp [reloadHandler, huser, hcard, hown]
      rw [hr]
      exact hinv
  · by_cases hown : cardId ∈ user.collectionCardIds
    · by_cases ht : user.manaIncreaseTokens.getD 0 ≤ 0
      · have hr : (increaseHandler db ms today (some uid) cardId).2.1 = ms := by
          simp [increaseHandler, huser, hcard, hown, ht]
        rw [hr]
        exact hinv
      · have hr : (increaseHandler db ms today (some uid) cardId).2.1
            = (setCurrentMana db
                (getCurrentMana db ms today cardId
                  (some (computeBaseMana db card user))).2 today cardId
                ((min (computeBaseMana db card user)
                  ((getCurrentMana db ms today cardId
                    (some (computeBaseMana db card user))).1 + 1) : Int) : Rat)).2 := by
          simp [increaseHandler, huser, hcard, hown, ht]
        rw [hr, ← hB]
        exact setCurrentMana_inv db _ today cardId card B _ hcard hB0
          (by rw [rat_floor_int]; exact min_le_left _ _)
    · have hr : (increaseHandler db ms today (some uid) cardId).2.1 = ms := by
        simp [increaseHandler, huser, hcard, hown]
      rw [hr]
      exact hinv
  · intro v hfl
    exact setCurrentMana_inv db ms today cardId card B v hcard hB0 hfl

theorem claim_C3_witness :
    manaLedgerInv 7
      (rechargeManaIfNeeded scenarioDB [("c7", ⟨"2026-02-02", 7⟩)] "2026-02-03" "c7"
        (some 7)).2 "c7" = true ∧
    manaLedgerInv 7
      (depleteMana scenarioDB [("c7", ⟨"2026-02-02", 7⟩)] "2026-02-03" "c7").2 "c7"
      = true ∧
    manaLedgerInv 7
      (reloadHandler scenarioDB [("c7", ⟨"2026-02-02", 7⟩)] "2026-02-03"
        (some "u1") "c7").2.1 "c7" = true ∧
    manaLedgerInv 7
      (increaseHandler scenarioDB [("c7", ⟨"2026-02-02", 7⟩)] "2026-02-03"
        (some "u1") "c7").2.1 "c7" = true ∧
    manaLedgerInv 7
      (setCurrentMana scenarioDB [("c7", ⟨"2026-02-02", 7⟩)] "2026-02-03" "c7"
        (Rat.divInt 6 1)).2 "c7" = true := by
  have h := claim_C3 scenarioDB [("c7", ⟨"2026-02-02", 7⟩)] "2026-02-03" "c7" "u1"
    ⟨5, some "hero"⟩ scenarioUser 7 (by decide) (by decide) (by decide) (by decide)
    (by decide)
  exact ⟨h.1, h.2.2.1, h.2.2.2.1, h.2.2.2.2.1, h.2.2.2.2.2 (Rat.divInt 6 1) (by decide)⟩

/-! ## Cipher layer (src/utils/encryption.ts) -/

/-- Lower-case hex digit for a value below 16 (`Buffer.toString('hex')`
produces lower-case digits). -/
def hexDigitChar (n : Nat) : Char :=
  if n < 10 then Char.ofNat (48 + n) else Char.ofNat (87 + n)

/-- The two hex digits of one byte. -/
def hexEncodeByte (b : Nat) : List Char :=
  [hexDigitChar (b / 16 % 16), hexDigitChar (b % 16)]

/-- Hex digits of a byte list. -/
def hexEncodeChars (l : List Nat) : List Char :=
  l.flatMap hexEncodeByte

/-- `Buffer.toString('hex')`. -/
def hexEncode (l : List Nat) : String :=
  String.mk (hexEncodeChars l)

/-- Value of one hex digit character, if any. -/
def hexDigitVal (c : Char) : Option Nat :=
  if '0' ≤ c ∧ c ≤ '9' then some (c.toNat - 48)
  else if 'a' ≤ c ∧ c ≤ 'f' then some (c.toNat - 87)
  else if 'A' ≤ c ∧ c ≤ 'F' then some (c.toNat - 55)
  else none

/-- `Buffer.from(s, 'hex')` over the character list: decodes pairs of hex
digits and stops at the first invalid pair or dangling digit. -/
def hexDecodeAux : List Char → List Nat
  | c1 :: c2 :: rest =>
      match hexDigitVal c1, hexDigitVal c2 with
      | some hi, some lo => (16 * hi + lo) :: hexDecodeAux rest
      | _, _ => []
  | _ => []

/-- `Buffer.from(s, 'hex')`. -/
def hexDecode (s : String) : List Nat :=
  hexDecodeAux s.data

/-- JS `String.prototype.split(sep)` over the character list: splits at every
occurrence of the separator. -/
def splitChar (sep : Char) : List Char → List (List Char)
  | [] => [[]]
  | c :: rest =>
      let r := splitChar sep rest
      if c = sep then [] :: r else (c :: r.headD []) :: r.tail

/-- JS `s.split(sep)` for a one-character separator. -/
def jsSplit (sep : Char) (s : String) : List String :=
  (splitChar sep s.data).map String.mk

/-- The platform cipher: `crypto.createCipheriv('aes-256-cbc', key, iv)`
composed with UTF-8 coding and PKCS#7 padding (all inside Node).  `enc key iv
text` is the ciphertext byte sequence; `dec key iv ct` is `none` exactly when
Node's decipher throws (bad padding / key mismatch). -/
structure AESCipher where
  enc : List Nat → List Nat → String → List Nat
  dec : List Nat → List Nat → List Nat → Option String

/-- `encryptMessageWithIV(text, iv)`: `iv.toString('hex') + ':' + encrypted`.
`createCipheriv` throws (here: `none`) when the IV is not 16 bytes. -/
def encryptMessageWithIV (C : AESCipher) (key : List Nat) (text : String)
    (iv : List Nat) : Option String :=
  if iv.length = 16 then
    some (hexEncode iv ++ ":" ++ hexEncode (C.enc key iv text))
  else none

/-- `encryptMessage(text)` draws a fresh random 16-byte IV and delegates to
`encryptMessageWithIV`; the randomness is passed in as the `iv` argument. -/
def encryptMessage (C : AESCipher) (key : List Nat) (iv : List Nat)
    (text : String) : Option String :=
  encryptMessageWithIV C key text iv

/-- `decryptMessage(encryptedText)`: rejects the empty string, splits on
`':'` requiring exactly two parts, hex-decodes the IV and ciphertext,
requires a 16-byte IV, tries the cached process key, and on failure retries
with the environment key when one is set and differs from the cached key
(`none` models every thrown error). -/
def decryptMessage (C : AESCipher) (key : List Nat) (envKey : Option (List Nat))
    (encryptedText : String) : Option String :=
  if encryptedText = "" then none
  else
    match jsSplit ':' encryptedText with
    | [p0, p1] =>
        let iv := hexDecode p0
        let encrypted := hexDecode p1
        if iv.length = 16 then
          match C.dec key iv encrypted with
          | some d => some d
          | none =>
              match envKey with
              | some ek => if ek ≠ key then C.dec ek iv encrypted else none
              | none => none
        else none
    | _ => none

theorem hexDigitVal_hexDigitChar {n : Nat} (h : n < 16) :
    hexDigitVal (hexDigitChar n) = some n := by
  interval_cases n <;> decide

theorem hexDigitChar_ne_colon {n : Nat} (h : n < 16) : hexDigitChar n ≠ ':' := by
  interval_cases n <;> decide

theorem hexDecodeAux_hexEncodeChars (l : List Nat) (h : ∀ b ∈ l, b < 256) :
    hexDecodeAux (hexEncodeChars l) = l := by
  induction l with
  | nil => rfl
  | cons b rest ih =>
      have hb : b < 256 := h b (List.mem_cons_self _ _)
      have h1 : b / 16 % 16 < 16 := Nat.mod_lt _ (by norm_num)
      have h2 : b % 16 < 16 := Nat.mod_lt _ (by norm_num)
      have hrest : hexDecodeAux (hexEncodeChars rest) = rest :=
        ih fun x hx => h x (List.mem_cons_of_mem _ hx)
      have hstep : hexEncodeChars (b :: rest)
          = hexDigitChar (b / 16 % 16) :: hexDigitChar (b % 16) :: hexEncodeChars rest := by
        simp [hexEncodeChars, hexEncodeByte]
      rw [hstep]
      simp only [hexDecodeAux, hexDigitVal_hexDigitChar h1, hexDigitVal_hexDigitChar h2,
        hrest]
      congr 1
      omega

theorem hexDecode_hexEncode (l : List Nat) (h : ∀ b ∈ l, b < 256) :
    hexDecode (hexEncode l) = l :=
  hexDecodeAux_hexEncodeChars l h

theorem colon_not_mem_hexEncodeChars (l : List Nat) : ':' ∉ hexEncodeChars l := by
  induction l with
  | nil => simp [hexEncodeChars]
  | cons b rest ih =>
      have h1 : b / 16 % 16 < 16 := Nat.mod_lt _ (by norm_num)
      have h2 : b % 16 < 16 := Nat.mod_lt _ (by norm_num)
      simp only [hexEncodeChars, List.flatMap_cons, hexEncodeByte, List.cons_append,
        List.nil_append, List.mem_cons]
      push_neg
      exact ⟨Ne.symm (hexDigitChar_ne_colon h1), Ne.symm (hexDigitChar_ne_colon h2),
        fun hmem => ih hmem⟩

theorem splitChar_ne_nil (sep : Char) (l : List Char) : splitChar sep l ≠ [] := by
  cases l with
  | nil => simp [splitChar]
  | cons c rest => by_cases h : c = sep <;> simp [splitChar, h]

theorem splitChar_of_not_mem (sep : Char) (l : List Char) (h : sep ∉ l) :
    splitChar sep l = [l] := by
  induction l with
  | nil => rfl
  | cons c rest ih =>
      have h1 : ¬ c = sep := fun e => h (e ▸ List.mem_cons_self _ _)
      have h2 : sep ∉ rest := fun e => h (List.mem_cons_of_mem _ e)
      simp [splitChar, ih h2, h1]

theorem splitChar_append (sep : Char) (a b : List Char) (ha : sep ∉ a) :
    splitChar sep (a ++ sep :: b) = a :: splitChar sep b := by
  induction a with
  | nil => simp [splitChar]
  | cons c a' ih =>
      have h1 : ¬ c = sep := fun e => ha (e ▸ List.mem_cons_self _ _)
      have h2 : sep ∉ a' := fun e => ha (List.mem_cons_of_mem _ e)
      simp [splitChar, ih h2, h1]

/-- Evaluation of `decryptMessage` on a well-formed `ivHex:cipherHex` string:
it hex-decodes both parts and runs the current key, then the environment-key
fallback. -/
theorem decryptMessage_format (C : AESCipher) (key : List Nat)
    (envKey : Option (List Nat)) (iv ct : List Nat)
    (hiv : iv.length = 16) (hivb : ∀ b ∈ iv, b < 256) (hctb : ∀ b ∈ ct, b < 256) :
    decryptMessage C key envKey (hexEncode iv ++ ":" ++ hexEncode ct)
      = (match C.dec key iv ct with
         | some d => some d
         | none =>
             match envKey with
             | some ek => if ek ≠ key then C.dec ek iv ct else none
             | none => none) := by
  have hdat : (hexEncode iv ++ ":" ++ hexEncode ct).data
      = hexEncodeChars iv ++ ':' :: hexEncodeChars ct := by
    simp [hexEncode, String.data_append]
  have hne : ¬ (hexEncode iv ++ ":" ++ hexEncode ct) = "" := by
    intro h
    have h2 := congrArg String.data h
    rw [hdat] at h2
    simp at h2
  have hsplit : jsSplit ':' (hexEncode iv ++ ":" ++ hexEncode ct)
      = [hexEncode iv, hexEncode ct] := by
    unfold jsSplit
    rw [hdat, splitChar_append _ _ _ (colon_not_mem_hexEncodeChars iv),
      splitChar_of_not_mem _ _ (colon_not_mem_hexEncodeChars ct)]
    rfl
  simp only [decryptMessage, hne, if_false, hsplit,
    hexDecode_hexEncode iv hivb, hexDecode_hexEncode ct hctb, hiv, if_true]

/-- A concrete executable cipher used by witnesses and counterexamples: the
ciphertext is a key-dependent tag byte followed by the code points of the
text; decryption fails exactly when the tag does not match the key. -/
def toyEnc (key : List Nat) (_iv : List Nat) (text : String) : List Nat :=
  (key.foldl (· + ·) 0 % 256) :: text.data.map (fun c => c.toNat % 256)

/-- Inverse of `toyEnc` for matching keys; `none` on a tag mismatch. -/
def toyDec (key : List Nat) (_iv : List Nat) (ct : List Nat) : Option String :=
  match ct with
  | [] => none
  | t :: rest =>
      if t = key.foldl (· + ·) 0 % 256 then some (String.mk (rest.map Char.ofNat))
      else none

/-- The toy cipher as an `AESCipher` instance for concrete evaluation. -/
def toyCipher : AESCipher := ⟨toyEnc, toyDec⟩

/-- Claim C6: under any platform cipher that round-trips on the given key, IV
and plaintext (with byte-valued output), the repository layer round-trips:
`decryptMessage (encryptMessage s) = s`; and `encryptMessageWithIV` output is
fully determined by its inputs, of the shape `ivHex:cipherHex` (this
deterministic shape is the second conjunct; the embedding is a pure
function, so two calls with identical inputs are identical). -/
theorem claim_C6 (C : AESCipher) (key : List Nat) (envKey : Option (List Nat))
    (s : String) (iv : List Nat)
    (hiv : iv.length = 16) (hivb : ∀ b ∈ iv, b < 256)
    (hctb : ∀ b ∈ C.enc key iv s, b < 256)
    (hdec : C.dec key iv (C.enc key iv s) = some s) :
    encryptMessage C key iv s
      = some (hexEncode iv ++ ":" ++ hexEncode (C.enc key iv s)) ∧
    encryptMessageWithIV C key s iv
      = some (hexEncode iv ++ ":" ++ hexEncode (C.enc key iv s)) ∧
    decryptMessage C key envKey ((encryptMessage C key iv s).getD "") = some s := by
  have h1 : encryptMessageWithIV C key s iv
      = some (hexEncode iv ++ ":" ++ hexEncode (C.enc key iv s)) := by
    simp [encryptMessageWithIV, hiv]
  refine ⟨h1, h1, ?_⟩
  rw [show encryptMessage C key iv s = encryptMessageWithIV C key s iv from rfl,
    h1, Option.getD_some,
    decryptMessage_format C key envKey iv (C.enc key iv s) hiv hivb hctb, hdec]

theorem claim_C6_witness :
    decryptMessage toyCipher [3] none
      ((encryptMessage toyCipher [3] (List.replicate 16 0) "alice@x.com").getD "")
      = some "alice@x.com" :=
  (claim_C6 toyCipher [3] none "alice@x.com" (List.replicate 16 0)
    (by decide) (by decide) (by decide) (by decide)).2.2

/-! ## Email lookup (src/utils/userEmailHelper.ts) -/

/-- JS `String.prototype.toLowerCase` restricted to ASCII letters (the only
characters the verified inputs use). -/
def asciiLower (c : Char) : Char :=
  if 'A' ≤ c ∧ c ≤ 'Z' then Char.ofNat (c.toNat + 32) else c

/-- JS `s.toLowerCase()`. -/
def jsToLower (s : String) : String :=
  String.mk (s.data.map asciiLower)

/-- JS whitespace test used by `trim` (the common whitespace characters). -/
def jsWhitespace (c : Char) : Bool :=
  c = ' ' ∨ c = '\t' ∨ c = '\n' ∨ c = '\r'

/-- JS `s.trim()`. -/
def jsTrim (s : String) : String :=
  String.mk (((s.data.dropWhile jsWhitespace).reverse.dropWhile jsWhitespace).reverse)

/-- Which branch of the per-user loop matched a record: the
decrypt-then-compare branch, or the catch-block IV-equality probe. -/
inductive MatchPath where
  | decryptPath
  | ivProbe
  deriving Repr, DecidableEq

/-- The per-user loop of `findUserByEmail`, instrumented with the branch that
matched.  For each user: try `decryptMessage(user.email)` and compare
lower-cased; when decryption throws, and the stored value contains `':'`,
take the first colon-separated part as IV hex, re-encrypt the normalized
candidate under the CURRENT key with that IV (`encryptMessageWithIV`), and
compare the raw strings; errors inside the probe skip the user. -/
def findUserByEmailAux (C : AESCipher) (key : List Nat) (envKey : Option (List Nat))
    (normalizedEmail : String) : List UserProfile → Option (UserProfile × MatchPath)
  | [] => none
  | u :: rest =>
      match decryptMessage C key envKey u.email with
      | some d =>
          if jsToLower d = normalizedEmail then some (u, .decryptPath)
          else findUserByEmailAux C key envKey normalizedEmail rest
      | none =>
          if u.email.data.contains ':' then
            match jsSplit ':' u.email with
            | [] => findUserByEmailAux C key envKey normalizedEmail rest
            | ivHex :: _ =>
                match encryptMessageWithIV C key normalizedEmail (hexDecode ivHex) with
                | some e =>
                    if e = u.email then some (u, .ivProbe)
                    else findUserByEmailAux C key envKey normalizedEmail rest
                | none => findUserByEmailAux C key envKey normalizedEmail rest
          else findUserByEmailAux C key envKey normalizedEmail rest

/-- `findUserByEmail(email)`: normalizes with `trim().toLowerCase()` and runs
the loop over all user records (identical in the JSON and Prisma branches of
the source); the matched branch is dropped from the result. -/
def findUserByEmail (C : AESCipher) (key : List Nat) (envKey : Option (List Nat))
    (email : String) (users : List UserProfile) : Option UserProfile :=
  (findUserByEmailAux C key envKey (jsToLower (jsTrim email)) users).map Prod.fst

/-- A record found through the IV-probe branch must have un-decryptable
stored email (under the current key and the fallback), and its stored value
must equal the re-encryption of the candidate under the CURRENT key with the
record's own IV. -/
theorem findUserByEmailAux_ivProbe (C : AESCipher) (key : List Nat)
    (envKey : Option (List Nat)) (norm : String) :
    ∀ (users : List UserProfile) (u : UserProfile),
      findUserByEmailAux C key envKey norm users = some (u, .ivProbe) →
      decryptMessage C key envKey u.email = none ∧
      encryptMessageWithIV C key norm (hexDecode ((jsSplit ':' u.email).headD ""))
        = some u.email := by
  intro users
  induction users with
  | nil =>
      intro u h
      simp [findUserByEmailAux] at h
  | cons v rest ih =>
      intro u h
      rw [findUserByEmailAux] at h
      split at h
      · split at h
        · simp at h
        · exact ih u h
      · rename_i hd
        split at h
        · split at h
          · exact ih u h
          · rename_i ivHex t hsp
            split at h
            · rename_i e he
              split at h
              · rename_i heq
                have h2 := Option.some.inj h
                have hv : v = u := congrArg Prod.fst h2
                subst hv
                refine ⟨hd, ?_⟩
                rw [hsp]
                simpa [heq] using he
              · exact ih u h
            · exact ih u h
        · exact ih u h

/-- Claim C2 as amended: with the old key retained as the environment
fallback, the record encrypted under it is still found — but through the
decryption branch (`decryptMessage` succeeds via its fallback retry), not the
IV probe; the IV-probe branch re-encrypts the candidate under the CURRENT
key, so it can only ever match a record whose stored value equals an
encryption under the current key. -/
theorem claim_C2 (C : AESCipher) (key kold : List Nat) (u : UserProfile)
    (rest : List UserProfile) (email d : String)
    (hdm : decryptMessage C key (some kold) u.email = some d)
    (hnorm : jsToLower d = jsToLower (jsTrim email)) :
    findUserByEmailAux C key (some kold) (jsToLower (jsTrim email)) (u :: rest)
      = some (u, .decryptPath) ∧
    (∀ (users : List UserProfile) (u' : UserProfile),
       findUserByEmailAux C key (some kold) (jsToLower (jsTrim email)) users
         = some (u', .ivProbe) →
       decryptMessage C key (some kold) u'.email = none ∧
       encryptMessageWithIV C key (jsToLower (jsTrim email))
         (hexDecode ((jsSplit ':' u'.email).headD "")) = some u'.email) := by
  constructor
  · simp [findUserByEmailAux, hdm, hnorm]
  · exact findUserByEmailAux_ivProbe C key (some kold) (jsToLower (jsTrim email))

/-- Ciphertext of `plain` under the OLD toy key `[3]` with the all-zero IV,
as stored in legacy records of the concrete scenarios. -/
def cexStored (plain : String) : String :=
  (encryptMessageWithIV toyCipher [3] plain (List.replicate 16 0)).getD ""

/-- The user record of the C2 scenario: email encrypted under the old key. -/
def c2User : UserProfile := { id := "a", email := cexStored "alice@x.com" }

/-- Claim C2, counterexample to the claimed mechanism: with current key `[4]`
and fallback `[3]`, the record is found — but through the decryption branch,
not the IV probe; and with no usable old key it is not found at all (the
probe, re-encrypting under `[4]`, never matches the `[3]`-ciphertext). -/
theorem claim_C2_cex :
    findUserByEmail toyCipher [4] (some [3]) "alice@x.com" [c2User] = some c2User ∧
    findUserByEmailAux toyCipher [4] (some [3]) (jsToLower (jsTrim "alice@x.com"))
      [c2User] = some (c2User, MatchPath.decryptPath) ∧
    MatchPath.decryptPath ≠ MatchPath.ivProbe ∧
    findUserByEmailAux toyCipher [4] none (jsToLower (jsTrim "alice@x.com"))
      [c2User] = none := by
  decide

theorem claim_C2_witness :
    findUserByEmailAux toyCipher [4] (some [3]) (jsToLower (jsTrim "alice@x.com"))
      [c2User, { id := "x", email := "other" }]
      = some (c2User, MatchPath.decryptPath) :=
  (claim_C2 toyCipher [4] [3] c2User [{ id := "x", email := "other" }]
    "alice@x.com" "alice@x.com" (by decide) (by decide)).1

/-! ## PII decryption for responses (src/utils/userHelpers.ts) -/

/-- The shared pattern of the `bio` / `interests` / `location` blocks of
`decryptUserData`: skipped when falsy, decrypted when possible, and the RAW
stored string is kept on decryption failure ("might be old format"); the
final `|| undefined` maps an empty result to absent. -/
def decPIIRaw (C : AESCipher) (key : List Nat) (envKey : Option (List Nat))
    (o : Option String) : Option String :=
  match o with
  | none => none
  | some b =>
      if b = "" then none
      else
        match decryptMessage C key envKey b with
        | some d => if d = "" then none else some d
        | none => some b

/-- The object returned by `decryptUserData`: the spread of the user record
with `passwordHash` (and the raw encrypted fields) destructured away — the
returned shape has no `passwordHash` property at all. -/
structure UserView where
  id : String
  email : String
  username : Option String
  bio : Option String
  interests : Option String
  location : Option String
  isAdmin : Option Bool
  manaReloadTokens : Option Int
  manaIncreaseTokens : Option Int
  lastLoginDate : Option String
  collectionCardIds : List String
  collectionSetIds : List String
  deriving Repr, DecidableEq

/-- `decryptUserData(user)`: email missing → placeholder; email with `':'` →
decrypt, falling back to the RAW stored string when decryption fails or the
plaintext lacks `'@'` or is empty; email without `':'` → kept as-is.
Username: decrypt when it has `':'`, with `undefined` on failure; plain
value kept.  `bio`/`interests`/`location` use `decPIIRaw` (raw fallback).
`isAdmin` decrypts and compares to `"true"`, comparing the raw value to
`"true"` on failure.  `passwordHash` is absent from the result by
construction. -/
def decryptUserData (C : AESCipher) (key : List Nat) (envKey : Option (List Nat))
    (u : UserProfile) : UserView :=
  let decryptedEmail :=
    if u.email = "" then "email@missing.com"
    else if u.email.data.contains ':' then
      match decryptMessage C key envKey u.email with
      | some d => if d = "" ∨ ¬ d.data.contains '@' then u.email else d
      | none => u.email
    else u.email
  let decryptedUsername : Option String :=
    match u.username with
    | none => none
    | some un =>
        if un = "" then none
        else if un.data.contains ':' then
          match decryptMessage C key envKey un with
          | some d => if d = "" then none else some d
          | none => none
        else some un
  let decryptedIsAdmin : Option Bool :=
    match u.isAdmin with
    | none => none
    | some a =>
        if a = "" then none
        else
          match decryptMessage C key envKey a with
          | some d => some (d == "true")
          | none => some (a == "true")
  { id := u.id
    email := decryptedEmail
    username := decryptedUsername
    bio := decPIIRaw C key envKey u.bio
    interests := decPIIRaw C key envKey u.interests
    location := decPIIRaw C key envKey u.location
    isAdmin := decryptedIsAdmin
    manaReloadTokens := u.manaReloadTokens
    manaIncreaseTokens := u.manaIncreaseTokens
    lastLoginDate := u.lastLoginDate
    collectionCardIds := u.collectionCardIds
    collectionSetIds := u.collectionSetIds }

/-- The user record of the C4 scenario: every PII field encrypted under the
old toy key `[3]`, undecryptable under the current key `[4]`. -/
def cexUser : UserProfile :=
  { id := "b", email := cexStored "bob@x.com", username := some (cexStored "bob"),
    bio := some (cexStored "my bio"), interests := some (cexStored "art"),
    location := some (cexStored "moon"), passwordHash := some "hash" }

/-- Claim C4, counterexample: on decryption failure of `bio` the code keeps
the RAW stored string (`decryptedBio = user.bio` in the catch), so the field
is NOT treated as absent. -/
theorem claim_C4_cex :
    (decryptUserData toyCipher [4] none cexUser).bio = some (cexStored "my bio") ∧
    some (cexStored "my bio") ≠ (none : Option String) := by
  decide

/-- Claim C4 as amended: `decryptUserData` is total (never throws); on email
decryption failure it returns the raw stored string; on username decryption
failure the field is absent; but on `bio`/`interests`/`location` decryption
failure the RAW stored string is returned (the field is kept, not absent);
`passwordHash` is stripped by construction (the returned `UserView` has no
such field, mirroring the destructuring in the source). -/
theorem claim_C4 (C : AESCipher) (key : List Nat) (envKey : Option (List Nat))
    (u : UserProfile) :
    (u.email ≠ "" → u.email.data.contains ':' = true →
       decryptMessage C key envKey u.email = none →
       (decryptUserData C key envKey u).email = u.email) ∧
    (∀ un, u.username = some un → un ≠ "" → un.data.contains ':' = true →
       decryptMessage C key envKey un = none →
       (decryptUserData C key envKey u).username = none) ∧
    (∀ b, u.bio = some b → b ≠ "" → decryptMessage C key envKey b = none →
       (decryptUserData C key envKey u).bio = some b) ∧
    (∀ i, u.interests = some i → i ≠ "" → decryptMessage C key envKey i = none →
       (decryptUserData C key envKey u).interests = some i) ∧
    (∀ l, u.location = some l → l ≠ "" → decryptMessage C key envKey l = none →
       (decryptUserData C key envKey u).location = some l) := by
  refine ⟨?_, ?_, ?_, ?_, ?_⟩
  · intro h1 h2 h3
    simp [decryptUserData, h1, h2, h3]
  · intro un h1 h2 h3 h4
    have h3' : ':' ∈ un.data := by simpa using h3
    simp [decryptUserData, h1, h2, h3', h4]
  · intro b h1 h2 h3
    simp [decryptUserData, decPIIRaw, h1, h2, h3]
  · intro i h1 h2 h3
    simp [decryptUserData, decPIIRaw, h1, h2, h3]
  · intro l h1 h2 h3
    simp [decryptUserData, decPIIRaw, h1, h2, h3]

theorem claim_C4_witness :
    (decryptUserData toyCipher [4] none cexUser).email = cexUser.email ∧
    (decryptUserData toyCipher [4] none cexUser).username = none ∧
    (decryptUserData toyCipher [4] none cexUser).interests = some (cexStored "art") ∧
    (decryptUserData toyCipher [4] none cexUser).location = some (cexStored "moon") := by
  have h := claim_C4 toyCipher [4] none cexUser
  exact ⟨h.1 (by decide) (by decide) (by decide),
    h.2.1 (cexStored "bob") (by decide) (by decide) (by decide) (by decide),
    h.2.2.2.1 (cexStored "art") (by decide) (by decide) (by decide),
    h.2.2.2.2 (cexStored "moon") (by decide) (by decide) (by decide)⟩
